import Mathlib

/-
Verification of the asl-robot-arm translation services.

The development shallowly embeds the three Python services of the repository:

* `api/translate/main.py` — the translation resolution pipeline (the core):
  `normalize`, the availability-gated remote fetchers
  `fetch_phrase_by_best_match` and `fetch_sign`, the local fallback stores
  `LOCAL_PHRASES` and `LOCAL_SIGNS`, the action builders, the spelling loop of
  `translate_text_to_actions`, and the two `/translate` endpoint wrappers.
* `api/signs/main.py` — the letter catalog `SIGNS` and the `GET /signs/{letter}`
  endpoint, including the JSON shape of its responses.
* `api/phrases/main.py` — the phrase catalog `PHRASES` and `GET /phrases`.

Network effects are modelled by an explicit environment `Env` recording the
availability booleans (the memoised `is_phrase_available`/`is_signs_available`
probes), the list a successful `GET /phrases` parses to, and the JSON body a
`GET /signs/{key}` returns.  Machine strings are `List Char` based `String`s;
Python `str.lower`/`str.strip`/`re` behaviour is modelled for the ASCII inputs
the services deal with.
-/

namespace ASL

/-! ## Character-level helpers (Python `str` behaviour on ASCII) -/

/-- The six ASCII characters matched by Python `\s` and stripped by
`str.strip()` on ASCII text: space, tab, LF, VT, FF, CR. -/
def isPySpace (c : Char) : Bool :=
  decide (c.toNat = 32 ∨ c.toNat = 9 ∨ c.toNat = 10 ∨ c.toNat = 11 ∨
          c.toNat = 12 ∨ c.toNat = 13)

/-- ASCII `a`–`z`. -/
def isAsciiLowerAlpha (c : Char) : Bool := decide (97 ≤ c.toNat ∧ c.toNat ≤ 122)

/-- ASCII `0`–`9`. -/
def isAsciiDigit (c : Char) : Bool := decide (48 ≤ c.toNat ∧ c.toNat ≤ 57)

/-- Characters kept by the regex `[^a-z0-9\s]+` substitution in
`translate.normalize` (it deletes everything that is not a lowercase letter,
digit or whitespace). -/
def isAllowed (c : Char) : Bool := isAsciiLowerAlpha c || isAsciiDigit c || isPySpace c

/-- Python `ch.isalpha()` for the ASCII range. -/
def isAlphaPy (c : Char) : Bool :=
  decide ((65 ≤ c.toNat ∧ c.toNat ≤ 90) ∨ (97 ≤ c.toNat ∧ c.toNat ≤ 122))

/-- Python `str.lower()` on one ASCII character. -/
def lowerAscii (c : Char) : Char :=
  if 65 ≤ c.toNat ∧ c.toNat ≤ 90 then Char.ofNat (c.toNat + 32) else c

/-- Python `str.upper()` on one ASCII character. -/
def upperAscii (c : Char) : Char :=
  if 97 ≤ c.toNat ∧ c.toNat ≤ 122 then Char.ofNat (c.toNat - 32) else c

/-! ## `normalize` (api/translate/main.py, lines 58-61) -/

/-- Remove trailing `\s` characters, as the right half of Python `str.strip()`. -/
def dropTrailing (l : List Char) : List Char := (l.reverse.dropWhile isPySpace).reverse

/-- Python `str.strip()` on a character list. -/
def pyStripList (l : List Char) : List Char := dropTrailing (l.dropWhile isPySpace)

/-- Character-list body of `normalize`: lower-case, delete every character that
the regex `[^a-z0-9\s]+` matches, then strip surrounding whitespace. -/
def normList (l : List Char) : List Char :=
  pyStripList ((l.map lowerAscii).filter isAllowed)

/-- Embedding of `normalize(text)`:
`_clean_re.sub("", text.lower()).strip()`. -/
def normalize (s : String) : String := String.mk (normList s.data)

/-- Python `str.strip()` on a `String` (used by the POST endpoint guard). -/
def pyStrip (s : String) : String := String.mk (pyStripList s.data)

/-! ### Facts about `normalize` -/

theorem lowerAscii_of_allowed (c : Char) (h : isAllowed c = true) : lowerAscii c = c := by
  simp only [isAllowed, isAsciiLowerAlpha, isAsciiDigit, isPySpace, Bool.or_eq_true,
    decide_eq_true_eq] at h
  unfold lowerAscii
  rw [if_neg]
  omega

theorem mem_of_mem_dropWhile (p : Char → Bool) (l : List Char) (c : Char)
    (h : c ∈ l.dropWhile p) : c ∈ l :=
  (List.dropWhile_sublist p).mem h

theorem mem_of_mem_pyStripList (l : List Char) (c : Char)
    (h : c ∈ pyStripList l) : c ∈ l := by
  unfold pyStripList dropTrailing at h
  rw [List.mem_reverse] at h
  have h2 := mem_of_mem_dropWhile _ _ _ h
  rw [List.mem_reverse] at h2
  exact mem_of_mem_dropWhile _ _ _ h2

theorem mem_normList_allowed (l : List Char) (c : Char)
    (h : c ∈ normList l) : isAllowed c = true := by
  unfold normList at h
  have h2 := mem_of_mem_pyStripList _ _ h
  exact (List.mem_filter.mp h2).2

theorem dropWhile_head_false (p : Char → Bool) :
    ∀ (l : List Char) (c : Char) (t : List Char), l.dropWhile p = c :: t → p c = false := by
  intro l
  induction l with
  | nil => intro c t h; simp [List.dropWhile] at h
  | cons a rest ih =>
    intro c t h
    rw [List.dropWhile_cons] at h
    by_cases hp : p a = true
    · rw [if_pos hp] at h
      exact ih c t h
    · rw [if_neg hp] at h
      cases h
      exact Bool.not_eq_true _ |>.mp hp

theorem pyStripList_head_false (l : List Char) (c : Char) (t : List Char)
    (h : pyStripList l = c :: t) : isPySpace c = false := by
  unfold pyStripList dropTrailing at h
  -- `dropTrailing m` is a prefix of `m`, so the head of the result is the head of `m`.
  have hpre : ((l.dropWhile isPySpace).reverse.dropWhile isPySpace).reverse <+:
      (l.dropWhile isPySpace) := by
    rw [← List.reverse_suffix, List.reverse_reverse]
    exact List.dropWhile_suffix isPySpace
  rw [h] at hpre
  obtain ⟨r, hr⟩ := hpre
  exact dropWhile_head_false isPySpace l c (t ++ r) (by rw [← hr]; simp)

theorem pyStripList_getLast_false (l : List Char) (c : Char)
    (h : (pyStripList l).getLast? = some c) : isPySpace c = false := by
  unfold pyStripList dropTrailing at h
  rw [List.getLast?_reverse] at h
  cases hd : ((l.dropWhile isPySpace).reverse.dropWhile isPySpace) with
  | nil => rw [hd] at h; simp at h
  | cons d r =>
    rw [hd] at h
    simp only [List.head?_cons, Option.some.injEq] at h
    rw [← h]
    exact dropWhile_head_false isPySpace _ d r hd

theorem pyStripList_of_stripped (x : List Char)
    (hh : ∀ c t, x = c :: t → isPySpace c = false)
    (hl : ∀ c, x.getLast? = some c → isPySpace c = false) :
    pyStripList x = x := by
  cases x with
  | nil => rfl
  | cons c t =>
    have hc : isPySpace c = false := hh c t rfl
    unfold pyStripList
    rw [List.dropWhile_cons, if_neg (by rw [hc]; simp)]
    unfold dropTrailing
    cases hr : (c :: t).reverse with
    | nil => simp at hr
    | cons d r =>
      have hdlast : (c :: t).getLast? = some d := by
        rw [← List.head?_reverse, hr]
        rfl
      have hd : isPySpace d = false := hl d hdlast
      rw [List.dropWhile_cons, if_neg (by rw [hd]; simp), ← hr,
        List.reverse_reverse]

theorem list_map_id_of_mem {α : Type} (f : α → α) (l : List α)
    (h : ∀ c ∈ l, f c = c) : l.map f = l := by
  induction l with
  | nil => rfl
  | cons a t ih =>
    simp only [List.map_cons, h a (List.mem_cons_self a t)]
    rw [ih (fun c hc => h c (List.mem_cons_of_mem a hc))]

theorem normList_idem (l : List Char) : normList (normList l) = normList l := by
  have hmap : (normList l).map lowerAscii = normList l :=
    list_map_id_of_mem _ _ (fun c hc => lowerAscii_of_allowed c (mem_normList_allowed l c hc))
  have hfil : (normList l).filter isAllowed = normList l :=
    List.filter_eq_self.mpr (fun c hc => mem_normList_allowed l c hc)
  conv_lhs => rw [normList, hmap, hfil]
  apply pyStripList_of_stripped
  · intro c t hct
    exact pyStripList_head_false _ c t (by rw [← hct]; rfl)
  · intro c hc
    exact pyStripList_getLast_false _ c (by rw [← hc]; rfl)

/-- Claim C9: `normalize` is idempotent — `normalize (normalize s) = normalize s`
for every input string, where `normalize` lower-cases, strips every character
that is not a lowercase letter, digit or whitespace, and trims surrounding
whitespace. -/
theorem C9_normalize_idempotent (s : String) : normalize (normalize s) = normalize s := by
  show String.mk (normList (String.mk (normList s.data)).data) = String.mk (normList s.data)
  have : (String.mk (normList s.data)).data = normList s.data := rfl
  rw [this, normList_idem]

/-! ## Data model (pydantic models of the three services)

`notes` strings of the two remote catalogs are elided to `none`: no code path
the claims concern ever reads them (`fetch_sign` parses only
handshape/orientation/location/motion, phrase matching reads only `name`), and
the `"O"` entry of `api/signs/main.py` (line 97) is not even well-formed Python.
The `"Fallback phrase"` notes of the local store are kept verbatim. -/

structure Step where
  handshape : String
  orientation : String
  location : String
  motion : String
deriving DecidableEq

structure Phrase where
  key : String
  name : String
  steps : List Step
  notes : Option String
deriving DecidableEq

structure LetterShape where
  letter : String
  handshape : String
  orientation : String
  location : String
  motion : String
deriving DecidableEq

structure Action where
  type : String
  label : String
  steps : List Step
deriving DecidableEq

structure TranslationResponse where
  normalized_text : String
  path : List Action
  source : String
  warnings : List String
deriving DecidableEq

/-- The 4xx failures of the translate surface: `invalidInput` models the 400 of
the POST guard and the FastAPI `min_length=1` rejection on GET; `noTranslation`
models the 422 `"Could not translate input"` HTTPException. -/
inductive ApiError where
  | invalidInput
  | noTranslation
deriving DecidableEq

/-! ## A small JSON model, for the letter-catalog wire format -/

inductive JVal where
  | jstr (s : String)
  | jarr (elems : List JVal)
  | jobj (fields : List (String × JVal))
  | jnull

/-- String extraction, as Python indexing a decoded JSON value expecting `str`. -/
def JVal.getStr? : JVal → Option String
  | .jstr s => some s
  | _ => none

/-- Python `data[k]` on a decoded JSON object (first matching field). -/
def jget (fields : List (String × JVal)) (k : String) : Option JVal :=
  (fields.find? (fun e => e.1 == k)).map (fun e => e.2)

/-! ## Signs service (api/signs/main.py) -/

structure Pose where
  handshape : String
  orientation : String
  location : String
  motion : String
deriving DecidableEq

structure Sign where
  key : String
  name : String
  poses : List Pose
  notes : Option String
deriving DecidableEq

/-- The A-Z catalog `SIGNS` (api/signs/main.py, lines 23-153), as an association
list in dictionary insertion order. -/
def SIGNS : List (String × Sign) := [
  ("A", { key := "A", name := "A", poses := [{ handshape := "fist", orientation := "palm-out", location := "neutral-space", motion := "none" }], notes := none }),
  ("B", { key := "B", name := "B", poses := [{ handshape := "flat-hand", orientation := "palm-out", location := "neutral-space", motion := "none" }], notes := none }),
  ("C", { key := "C", name := "C", poses := [{ handshape := "c-shape", orientation := "palm-right", location := "neutral-space", motion := "none" }], notes := none }),
  ("D", { key := "D", name := "D", poses := [{ handshape := "index-up-thumb-circle", orientation := "palm-out", location := "neutral-space", motion := "none" }], notes := none }),
  ("E", { key := "E", name := "E", poses := [{ handshape := "claw-thumb-tips", orientation := "palm-out", location := "neutral-space", motion := "none" }], notes := none }),
  ("F", { key := "F", name := "F", poses := [{ handshape := "ok-circle", orientation := "palm-out", location := "neutral-space", motion := "none" }], notes := none }),
  ("G", { key := "G", name := "G", poses := [{ handshape := "index-thumb-parallel", orientation := "palm-left", location := "neutral-space", motion := "none" }], notes := none }),
  ("H", { key := "H", name := "H", poses := [{ handshape := "index-middle-extended", orientation := "palm-left", location := "neutral-space", motion := "none" }], notes := none }),
  ("I", { key := "I", name := "I", poses := [{ handshape := "pinky-up", orientation := "palm-in", location := "neutral-space", motion := "none" }], notes := none }),
  ("J", { key := "J", name := "J", poses := [{ handshape := "pinky-up", orientation := "palm-in", location := "neutral-space", motion := "trace-j" }], notes := none }),
  ("K", { key := "K", name := "K", poses := [{ handshape := "k-shape", orientation := "palm-out", location := "neutral-space", motion := "none" }], notes := none }),
  ("L", { key := "L", name := "L", poses := [{ handshape := "l-shape", orientation := "palm-out", location := "neutral-space", motion := "none" }], notes := none }),
  ("M", { key := "M", name := "M", poses := [{ handshape := "m-shape", orientation := "palm-in", location := "neutral-space", motion := "none" }], notes := none }),
  ("N", { key := "N", name := "N", poses := [{ handshape := "n-shape", orientation := "palm-in", location := "neutral-space", motion := "none" }], notes := none }),
  ("O", { key := "O", name := "O", poses := [{ handshape := "o-shape", orientation := "palm-out", location := "neutral-space", motion := "none" }], notes := none }),
  ("P", { key := "P", name := "P", poses := [{ handshape := "k-shape", orientation := "palm-down", location := "neutral-space", motion := "none" }], notes := none }),
  ("Q", { key := "Q", name := "Q", poses := [{ handshape := "index-thumb-parallel", orientation := "palm-down", location := "neutral-space", motion := "none" }], notes := none }),
  ("R", { key := "R", name := "R", poses := [{ handshape := "r-shape", orientation := "palm-out", location := "neutral-space", motion := "none" }], notes := none }),
  ("S", { key := "S", name := "S", poses := [{ handshape := "fist-thumb-front", orientation := "palm-out", location := "neutral-space", motion := "none" }], notes := none }),
  ("T", { key := "T", name := "T", poses := [{ handshape := "t-shape", orientation := "palm-out", location := "neutral-space", motion := "none" }], notes := none }),
  ("U", { key := "U", name := "U", poses := [{ handshape := "u-shape", orientation := "palm-out", location := "neutral-space", motion := "none" }], notes := none }),
  ("V", { key := "V", name := "V", poses := [{ handshape := "v-shape", orientation := "palm-out", location := "neutral-space", motion := "none" }], notes := none }),
  ("W", { key := "W", name := "W", poses := [{ handshape := "w-shape", orientation := "palm-out", location := "neutral-space", motion := "none" }], notes := none }),
  ("X", { key := "X", name := "X", poses := [{ handshape := "hook-index", orientation := "palm-out", location := "neutral-space", motion := "none" }], notes := none }),
  ("Y", { key := "Y", name := "Y", poses := [{ handshape := "y-shape", orientation := "palm-in", location := "neutral-space", motion := "none" }], notes := none }),
  ("Z", { key := "Z", name := "Z", poses := [{ handshape := "index-up", orientation := "palm-out", location := "neutral-space", motion := "trace-z" }], notes := none })]

/-- Python `SIGNS.get(k)`. -/
def lookupSIGNS (k : String) : Option Sign :=
  (SIGNS.find? (fun e => e.1 == k)).map (fun e => e.2)

/-- Python `str.upper()` on a whole ASCII string. -/
def upperStr (s : String) : String := String.mk (s.data.map upperAscii)

/-- Embedding of the `GET /signs/{letter}` handler `get_sign`
(api/signs/main.py, lines 183-189): uppercase the path segment, look up the
catalog, 404 (`none`) when absent. -/
def get_sign (letter : String) : Option Sign := lookupSIGNS (upperStr letter)

/-- FastAPI serialization of a `Pose` under `response_model`. -/
def encodePose (p : Pose) : JVal :=
  .jobj [("handshape", .jstr p.handshape), ("orientation", .jstr p.orientation),
         ("location", .jstr p.location), ("motion", .jstr p.motion)]

/-- FastAPI serialization of a `Sign` under `response_model=Sign`: the wire
object has exactly the fields `key`, `name`, `poses`, `notes`. -/
def encodeSign (s : Sign) : JVal :=
  .jobj [("key", .jstr s.key), ("name", .jstr s.name),
         ("poses", .jarr (s.poses.map encodePose)),
         ("notes", match s.notes with | some n => .jstr n | none => .jnull)]

/-- The JSON body a 200 response of `GET /signs/{letter}` carries (`none` for
the 404 case). -/
def get_sign_response (letter : String) : Option JVal := (get_sign letter).map encodeSign

/-! ## Phrases service (api/phrases/main.py) -/

def PHRASE_DO_YOU_KNOW_ASL : Phrase :=
  { key := "PHRASE_DO_YOU_KNOW_ASL", name := "do you know ASL",
    steps := [{ handshape := "flat-hand", orientation := "palm-down", location := "temple", motion := "tap" },
              { handshape := "index-point", orientation := "palm-forward", location := "neutral-space", motion := "none" },
              { handshape := "a-s-l-sequence", orientation := "varies", location := "neutral-space", motion := "spell" }],
    notes := none }

def PHRASE_HELLO : Phrase :=
  { key := "PHRASE_HELLO", name := "hello",
    steps := [{ handshape := "flat-hand", orientation := "palm-out", location := "near-temple", motion := "small-outward-wave" }],
    notes := none }

def PHRASE_HOW_ARE_YOU : Phrase :=
  { key := "PHRASE_HOW_ARE_YOU", name := "how are you",
    steps := [{ handshape := "curved-hands", orientation := "palm-down", location := "chest", motion := "twist-together" },
              { handshape := "index-point", orientation := "palm-forward", location := "neutral-space", motion := "none" }],
    notes := none }

def PHRASE_I_LOVE_YOU : Phrase :=
  { key := "PHRASE_I_LOVE_YOU", name := "i love you",
    steps := [{ handshape := "i-love-you-shape", orientation := "palm-forward", location := "neutral-space", motion := "none" }],
    notes := none }

def PHRASE_NICE_TO_MEET_YOU : Phrase :=
  { key := "PHRASE_NICE_TO_MEET_YOU", name := "nice to meet you",
    steps := [{ handshape := "flat-hands", orientation := "palm-in", location := "neutral-space", motion := "slide-right" },
              { handshape := "index-up", orientation := "palm-in", location := "neutral-space", motion := "hands-meet" }],
    notes := none }

def PHRASE_PLEASE : Phrase :=
  { key := "PHRASE_PLEASE", name := "please",
    steps := [{ handshape := "flat-hand", orientation := "palm-in", location := "chest", motion := "circle-clockwise" }],
    notes := none }

def PHRASE_SORRY : Phrase :=
  { key := "PHRASE_SORRY", name := "sorry",
    steps := [{ handshape := "fist", orientation := "palm-in", location := "chest", motion := "circle-clockwise" }],
    notes := none }

def PHRASE_THANK_YOU : Phrase :=
  { key := "PHRASE_THANK_YOU", name := "thank you",
    steps := [{ handshape := "flat-hand", orientation := "palm-in", location := "chin", motion := "move-forward" }],
    notes := none }

/-- What `GET /phrases` of the phrases service returns (api/phrases/main.py,
lines 192-194): the values of the `PHRASES` dict sorted by key; the list below
is written in that sorted-by-key order. -/
def phrasesServiceList : List Phrase :=
  [PHRASE_DO_YOU_KNOW_ASL, PHRASE_HELLO, PHRASE_HOW_ARE_YOU, PHRASE_I_LOVE_YOU,
   PHRASE_NICE_TO_MEET_YOU, PHRASE_PLEASE, PHRASE_SORRY, PHRASE_THANK_YOU]

/-! ## Translate service (api/translate/main.py) -/

/-- The fallback store `LOCAL_PHRASES` (lines 82-114). -/
def LOCAL_PHRASES : List (String × Phrase) := [
  ("hello",
    { key := "PHRASE_HELLO", name := "hello",
      steps := [{ handshape := "flat-hand", orientation := "palm-out", location := "near-temple", motion := "small-outward-wave" }],
      notes := some "Fallback phrase" }),
  ("how are you",
    { key := "PHRASE_HOW_ARE_YOU", name := "how are you",
      steps := [{ handshape := "curved-hands", orientation := "palm-down", location := "chest", motion := "twist-together" },
                { handshape := "index-point", orientation := "palm-forward", location := "neutral-space", motion := "none" }],
      notes := some "Fallback phrase" }),
  ("do you know asl",
    { key := "PHRASE_DO_YOU_KNOW_ASL", name := "do you know asl",
      steps := [{ handshape := "flat-hand", orientation := "palm-down", location := "temple", motion := "tap" },
                { handshape := "index-point", orientation := "palm-forward", location := "neutral-space", motion := "none" },
                { handshape := "a-s-l-sequence", orientation := "varies", location := "neutral-space", motion := "spell" }],
      notes := some "Fallback phrase" }),
  ("thank you",
    { key := "PHRASE_THANK_YOU", name := "thank you",
      steps := [{ handshape := "flat-hand", orientation := "palm-in", location := "chin", motion := "move-forward" }],
      notes := some "Fallback phrase" })]

/-- The fallback store `LOCAL_SIGNS` (lines 117-124), keyed by lowercase letter. -/
def LOCAL_SIGNS : List (Char × LetterShape) := [
  ('a', { letter := "A", handshape := "fist", orientation := "palm-out", location := "neutral-space", motion := "none" }),
  ('b', { letter := "B", handshape := "flat-hand-thumb-in", orientation := "palm-out", location := "neutral-space", motion := "none" }),
  ('c', { letter := "C", handshape := "curved-C", orientation := "palm-out", location := "neutral-space", motion := "none" }),
  ('i', { letter := "I", handshape := "pinky-extended", orientation := "palm-out", location := "neutral-space", motion := "none" }),
  ('l', { letter := "L", handshape := "L-shape", orientation := "palm-out", location := "neutral-space", motion := "none" }),
  ('y', { letter := "Y", handshape := "thumb-pinky-out", orientation := "palm-out", location := "neutral-space", motion := "shake-small" })]

/-- Python `LOCAL_PHRASES.get(k)`. -/
def lookupLocalPhrase (k : String) : Option Phrase :=
  (LOCAL_PHRASES.find? (fun e => e.1 == k)).map (fun e => e.2)

/-- Python `LOCAL_SIGNS.get(c)`. -/
def lookupLocalSign (c : Char) : Option LetterShape :=
  (LOCAL_SIGNS.find? (fun e => e.1 == c)).map (fun e => e.2)

/-- The world outside the translate service: the two memoised availability
probes, whether the `GET /phrases` fetch-and-parse inside
`fetch_phrase_by_best_match` succeeds, the phrase list it parses to, and the
200 body (if any) a `GET /signs/{key}` returns. -/
structure Env where
  phrasesUp : Bool
  phrasesFetchOk : Bool
  remotePhrases : List Phrase
  signsUp : Bool
  signsResp : String → Option JVal

/-- Embedding of `fetch_phrase_by_best_match` (lines 129-147): when the phrase
catalog probe succeeded and the fetch does not raise, scan the remote list for
the first phrase whose normalized name equals the normalized text; in every
other case (probe failed, fetch raised, or no remote name matched) fall back to
`LOCAL_PHRASES.get`. -/
def fetch_phrase_by_best_match (env : Env) (norm_text : String) : Option Phrase :=
  match (if env.phrasesUp && env.phrasesFetchOk
         then env.remotePhrases.find? (fun p => normalize p.name == norm_text)
         else none) with
  | some p => some p
  | none => lookupLocalPhrase norm_text

/-- The URL path segment / parse key `letter.upper()` used by `fetch_sign`. -/
def signKey (ch : Char) : String := String.mk [upperAscii ch]

/-- `(jget fields k).bind getStr?`: Python `data[k]` expected to be a string;
`none` models the KeyError / validation failure swallowed by `except`. -/
def jgetStr (fields : List (String × JVal)) (k : String) : Option String :=
  (jget fields k).bind JVal.getStr?

/-- Python `data.get("motion", "none")`. -/
def jgetMotion (fields : List (String × JVal)) : Option String :=
  match jget fields "motion" with
  | none => some "none"
  | some v => v.getStr?

/-- How `fetch_sign` reads a 200 body (lines 156-163): top-level
`data["handshape"]`, `data["orientation"]`, `data["location"]`,
`data.get("motion", "none")`; any missing key raises, which the surrounding
`except` turns into a fallthrough (`none`). -/
def parseLetterShape (key : String) (j : JVal) : Option LetterShape :=
  match j with
  | .jobj fields =>
    (jgetStr fields "handshape").bind fun h =>
    (jgetStr fields "orientation").bind fun o =>
    (jgetStr fields "location").bind fun loc =>
    (jgetMotion fields).map fun m =>
      { letter := key, handshape := h, orientation := o, location := loc, motion := m }
  | _ => none

/-- Embedding of `fetch_sign` (lines 149-167): when the signs probe succeeded,
try the remote catalog and parse its body; on 404, transport error or parse
failure fall back to `LOCAL_SIGNS.get(letter.lower())`. -/
def fetch_sign (env : Env) (ch : Char) : Option LetterShape :=
  match (if env.signsUp
         then (env.signsResp (signKey ch)).bind (parseLetterShape (signKey ch))
         else none) with
  | some ls => some ls
  | none => lookupLocalSign (lowerAscii ch)

/-- `build_action_from_phrase` (lines 172-173). -/
def build_action_from_phrase (p : Phrase) : Action :=
  { type := "phrase", label := p.name, steps := p.steps }

/-- `build_action_from_letter` (lines 175-177): always exactly one step. -/
def build_action_from_letter (ls : LetterShape) : Action :=
  { type := "letter", label := ls.letter,
    steps := [{ handshape := ls.handshape, orientation := ls.orientation,
                location := ls.location, motion := ls.motion }] }

/-- An ASCII single quote, kept out of string literals. -/
def squote : Char := Char.ofNat 39

/-- The warning `f"Character {ch} not supported; skipped."` with `ch` quoted
(line 201). -/
def charWarning (ch : Char) : String :=
  "Character " ++ String.mk [squote, ch, squote] ++ " not supported; skipped."

/-- Python `sorted(set(l))` on characters. -/
def pySortedSet (l : List Char) : List Char :=
  List.insertionSort (fun a b => a ≤ b) l.dedup

/-- The aggregated warning of line 213:
`f"No sign data for: {chars} (consider expanding the Signs API)."` where
`chars` joins `sorted(set(missing_letters))` with a comma. -/
def missingWarning (ms : List Char) : String :=
  "No sign data for: " ++
    String.intercalate ", " ((pySortedSet ms).map (fun c => String.mk [c])) ++
    " (consider expanding the Signs API)."

/-- State built by the spelling loop: the actions, the per-character warnings
and the unresolved letters, each in input order. -/
structure SpellAcc where
  actions : List Action
  warnings : List String
  missing : List Char
deriving DecidableEq

/-- The spelling loop of `translate_text_to_actions` (lines 194-207), rendered
as structural recursion: the head character contributes before everything the
tail contributes, exactly as the Python left-to-right append loop. -/
def spellList (env : Env) : List Char → SpellAcc
  | [] => { actions := [], warnings := [], missing := [] }
  | ch :: rest =>
    let tail := spellList env rest
    if ch = ' ' then tail
    else if isAlphaPy ch = false then
      { actions := tail.actions, warnings := charWarning ch :: tail.warnings,
        missing := tail.missing }
    else
      match fetch_sign env ch with
      | some sign =>
        { actions := build_action_from_letter sign :: tail.actions,
          warnings := tail.warnings, missing := tail.missing }
      | none =>
        { actions := tail.actions, warnings := tail.warnings,
          missing := ch :: tail.missing }

/-- Embedding of `translate_text_to_actions` (lines 179-220): phrase match
first; otherwise spell, failing with the 422 when no action was produced
(checked before the aggregated warning is appended), else appending one
aggregated warning when letters were unresolved. -/
def translate_text_to_actions (env : Env) (text : String) :
    Except ApiError TranslationResponse :=
  match fetch_phrase_by_best_match env (normalize text) with
  | some phrase =>
    .ok { normalized_text := normalize text,
          path := [build_action_from_phrase phrase],
          source := "phrases", warnings := [] }
  | none =>
    if (spellList env (normalize text).data).actions = [] then
      .error .noTranslation
    else
      .ok { normalized_text := normalize text,
            path := (spellList env (normalize text).data).actions,
            source := "spelling",
            warnings := (spellList env (normalize text).data).warnings ++
              (if (spellList env (normalize text).data).missing = [] then []
               else [missingWarning (spellList env (normalize text).data).missing]) }

/-- `GET /translate` (lines 237-239): FastAPI rejects `text` shorter than
`min_length=1` before the handler runs; any nonempty text reaches
`translate_text_to_actions` unchecked. -/
def translate_get (env : Env) (text : String) : Except ApiError TranslationResponse :=
  if text = "" then .error .invalidInput else translate_text_to_actions env text

/-- `POST /translate` (lines 241-245): 400 when `not req.text or not
req.text.strip()`. -/
def translate_post (env : Env) (text : String) : Except ApiError TranslationResponse :=
  if text = "" ∨ pyStrip text = "" then .error .invalidInput
  else translate_text_to_actions env text

/-- Both catalogs unreachable: the resolver runs purely on the fallback stores. -/
def envLocal : Env :=
  { phrasesUp := false, phrasesFetchOk := false, remotePhrases := [],
    signsUp := false, signsResp := fun _ => none }

/-- Both services reachable and serving their catalogs: `GET /phrases` parses
to the sorted phrase list, `GET /signs/{key}` answers with the serialized
`Sign` record. -/
def envReal : Env :=
  { phrasesUp := true, phrasesFetchOk := true, remotePhrases := phrasesServiceList,
    signsUp := true, signsResp := get_sign_response }

/-! ## Shared facts about the pipeline -/

theorem tta_phrase (env : Env) (text : String) (p : Phrase)
    (h : fetch_phrase_by_best_match env (normalize text) = some p) :
    translate_text_to_actions env text =
      .ok { normalized_text := normalize text, path := [build_action_from_phrase p],
            source := "phrases", warnings := [] } := by
  unfold translate_text_to_actions
  rw [h]

theorem tta_none_eq (env : Env) (text : String)
    (h : fetch_phrase_by_best_match env (normalize text) = none) :
    translate_text_to_actions env text =
      (if (spellList env (normalize text).data).actions = [] then
        Except.error ApiError.noTranslation
      else
        Except.ok
          { normalized_text := normalize text,
            path := (spellList env (normalize text).data).actions,
            source := "spelling",
            warnings := (spellList env (normalize text).data).warnings ++
              (if (spellList env (normalize text).data).missing = [] then []
               else [missingWarning (spellList env (normalize text).data).missing]) }) := by
  unfold translate_text_to_actions
  rw [h]

theorem tta_ne_invalid (env : Env) (text : String) :
    translate_text_to_actions env text ≠ Except.error ApiError.invalidInput := by
  unfold translate_text_to_actions
  cases h : fetch_phrase_by_best_match env (normalize text) with
  | some p => simp
  | none =>
    by_cases ha : (spellList env (normalize text).data).actions = []
    · rw [if_pos ha]; simp
    · rw [if_neg ha]; simp

theorem fetch_phrase_remote (env : Env) (norm : String)
    (hup : env.phrasesUp = true) (hok : env.phrasesFetchOk = true) :
    fetch_phrase_by_best_match env norm =
      (match env.remotePhrases.find? (fun p => normalize p.name == norm) with
       | some p => some p
       | none => lookupLocalPhrase norm) := by
  unfold fetch_phrase_by_best_match
  rw [hup, hok]
  rfl

/-! ## Claim C1 — exact phrase match -/

/-- Claim C1 (counterexample): the claim says a phrase hit returns
`source = "phrase"`; the code returns the literal `"phrases"`
(api/translate/main.py line 189), exhibited here on input `"Hello"` against the
running catalogs. -/
theorem C1_counterexample :
    (translate_text_to_actions envReal "Hello").map TranslationResponse.source =
      Except.ok "phrases" ∧ ("phrases" : String) ≠ "phrase" := by
  constructor
  · rfl
  · decide

/-- Claim C1 (amended): for a phrase entry `p` of the reachable remote catalog
whose normalized display name equals the normalized input text and which is the
only such entry, translation returns `source = "phrases"` (the code's literal,
where the claim said `"phrase"`), exactly one action built from that entry's
steps and labeled by its name, and no warnings. -/
theorem C1_phrase_match (env : Env) (text : String) (p : Phrase)
    (hup : env.phrasesUp = true) (hok : env.phrasesFetchOk = true)
    (hmem : p ∈ env.remotePhrases)
    (heq : normalize p.name = normalize text)
    (huniq : ∀ q ∈ env.remotePhrases, normalize q.name = normalize text → q = p) :
    translate_text_to_actions env text =
      .ok { normalized_text := normalize text,
            path := [build_action_from_phrase p],
            source := "phrases", warnings := [] } := by
  apply tta_phrase
  rw [fetch_phrase_remote env (normalize text) hup hok]
  cases hf : env.remotePhrases.find? (fun q => normalize q.name == normalize text) with
  | none =>
    rw [List.find?_eq_none] at hf
    exact absurd (by rw [heq]; exact beq_self_eq_true _ :
      (normalize p.name == normalize text) = true) (hf p hmem)
  | some q =>
    have hq := List.find?_some hf
    rw [beq_iff_eq] at hq
    have hqp : q = p := huniq q (List.mem_of_find?_eq_some hf) hq
    rw [hqp]

/-- Witness for C1: the spec scenario — input `"Hello!"` against the real
phrase catalog resolves to the `hello` phrase entry. -/
theorem C1_phrase_match_witness :
    (envReal.phrasesUp = true ∧ envReal.phrasesFetchOk = true ∧
     PHRASE_HELLO ∈ envReal.remotePhrases ∧
     normalize PHRASE_HELLO.name = normalize "Hello!" ∧
     (∀ q ∈ envReal.remotePhrases, normalize q.name = normalize "Hello!" → q = PHRASE_HELLO)) ∧
    translate_text_to_actions envReal "Hello!" =
      .ok { normalized_text := normalize "Hello!",
            path := [build_action_from_phrase PHRASE_HELLO],
            source := "phrases", warnings := [] } :=
  ⟨⟨rfl, rfl, by decide, by decide, by decide⟩,
   C1_phrase_match envReal "Hello!" PHRASE_HELLO rfl rfl (by decide) (by decide) (by decide)⟩

/-! ## Claim C2 — the letter-catalog wire shape -/

theorem parse_encodeSign_none (k : String) (s : Sign) :
    parseLetterShape k (encodeSign s) = none := rfl

/-- Claim C2 (code_bug): the signs service serializes `Sign` as
`{key, name, poses, notes}` with the pose fields nested inside `poses`, while
`fetch_sign` reads top-level `data["handshape"]`; so although `GET /signs/A`
does answer 200 for the known letter `A`, parsing every such response fails and
`fetch_sign` always degrades to the local fallback store even with the signs
service reachable. -/
theorem C2_shape_mismatch :
    (∀ ch : Char, fetch_sign envReal ch = lookupLocalSign (lowerAscii ch)) ∧
    (get_sign_response "A").isSome = true := by
  constructor
  · intro ch
    unfold fetch_sign
    have hb : (if envReal.signsUp
               then (envReal.signsResp (signKey ch)).bind (parseLetterShape (signKey ch))
               else none) = none := by
      show (get_sign_response (signKey ch)).bind (parseLetterShape (signKey ch)) = none
      unfold get_sign_response
      cases hs : get_sign (signKey ch) with
      | none => rfl
      | some s => exact parse_encodeSign_none (signKey ch) s
    rw [hb]
  · rfl

/-! ## Claim C10 — every spelled action: kind letter, uppercase label, one step -/

theorem parse_letter_eq_key (k : String) (j : JVal) (ls : LetterShape)
    (h : parseLetterShape k j = some ls) : ls.letter = k := by
  cases j with
  | jobj fields =>
    unfold parseLetterShape at h
    rw [Option.bind_eq_some] at h
    obtain ⟨h1, -, h⟩ := h
    rw [Option.bind_eq_some] at h
    obtain ⟨o1, -, h⟩ := h
    rw [Option.bind_eq_some] at h
    obtain ⟨l1, -, h⟩ := h
    rw [Option.map_eq_some'] at h
    obtain ⟨m1, -, h⟩ := h
    rw [← h]
  | jstr s => cases h
  | jarr es => cases h
  | jnull => cases h

theorem lowerAscii_id_of_lower (c : Char) (h : isAsciiLowerAlpha c = true) :
    lowerAscii c = c := by
  simp only [isAsciiLowerAlpha, decide_eq_true_eq] at h
  unfold lowerAscii
  rw [if_neg]
  omega

theorem mem_of_lookupLocalSign (c : Char) (ls : LetterShape)
    (h : lookupLocalSign c = some ls) : (c, ls) ∈ LOCAL_SIGNS := by
  unfold lookupLocalSign at h
  rw [Option.map_eq_some'] at h
  obtain ⟨e, he, h2⟩ := h
  have hmem := List.mem_of_find?_eq_some he
  have hpred := List.find?_some he
  rw [beq_iff_eq] at hpred
  have : e = (c, ls) := by
    cases e
    simp only [Prod.mk.injEq]
    exact ⟨hpred, h2⟩
  rw [← this]
  exact hmem

theorem fetch_sign_letter (env : Env) (ch : Char) (ls : LetterShape)
    (hlow : isAsciiLowerAlpha ch = true)
    (h : fetch_sign env ch = some ls) : ls.letter = signKey ch := by
  unfold fetch_sign at h
  cases hrem : (if env.signsUp
                then (env.signsResp (signKey ch)).bind (parseLetterShape (signKey ch))
                else none) with
  | some r =>
    rw [hrem] at h
    cases h
    by_cases hs : env.signsUp = true
    · rw [if_pos hs, Option.bind_eq_some] at hrem
      obtain ⟨j, -, hj⟩ := hrem
      exact parse_letter_eq_key _ j ls hj
    · rw [if_neg hs] at hrem
      cases hrem
  | none =>
    rw [hrem] at h
    rw [lowerAscii_id_of_lower ch hlow] at h
    have hmem := mem_of_lookupLocalSign ch ls h
    simp only [LOCAL_SIGNS, List.mem_cons, List.not_mem_nil, or_false,
      Prod.mk.injEq] at hmem
    rcases hmem with ⟨h1, h2⟩ | ⟨h1, h2⟩ | ⟨h1, h2⟩ | ⟨h1, h2⟩ | ⟨h1, h2⟩ | ⟨h1, h2⟩ <;>
      (subst h1; subst h2; decide)

theorem spellList_actions_mem (env : Env) (l : List Char) :
    ∀ a ∈ (spellList env l).actions, ∃ ch ∈ l, isAlphaPy ch = true ∧
      ∃ ls, fetch_sign env ch = some ls ∧ a = build_action_from_letter ls := by
  induction l with
  | nil => intro a ha; simp [spellList] at ha
  | cons c rest ih =>
    intro a ha
    simp only [spellList] at ha
    split at ha
    · obtain ⟨ch, hch, rest0⟩ := ih a ha
      exact ⟨ch, List.mem_cons_of_mem c hch, rest0⟩
    · split at ha
      · obtain ⟨ch, hch, rest0⟩ := ih a ha
        exact ⟨ch, List.mem_cons_of_mem c hch, rest0⟩
      · next hsp halpha =>
        split at ha
        · next sign heq =>
          dsimp only at ha
          rw [List.mem_cons] at ha
          rcases ha with ha | ha
          · exact ⟨c, List.mem_cons_self c rest,
              Bool.not_eq_false _ |>.mp halpha, sign, heq, ha⟩
          · obtain ⟨ch, hch, rest0⟩ := ih a ha
            exact ⟨ch, List.mem_cons_of_mem c hch, rest0⟩
        · obtain ⟨ch, hch, rest0⟩ := ih a ha
          exact ⟨ch, List.mem_cons_of_mem c hch, rest0⟩

theorem allowed_alpha_is_lower (c : Char) (hal : isAllowed c = true)
    (hph : isAlphaPy c = true) : isAsciiLowerAlpha c = true := by
  simp only [isAllowed, isAsciiLowerAlpha, isAsciiDigit, isPySpace, Bool.or_eq_true,
    decide_eq_true_eq] at hal ⊢
  simp only [isAlphaPy, decide_eq_true_eq] at hph
  omega

/-- Claim C10 (counterexample): the claim asserts the Signs catalog models `J`
(and `Z`) as multi-pose traces; in the catalog `J` has exactly one pose (the
trace is encoded in its `motion` field), so there is nothing to flatten. -/
theorem C10_counterexample :
    ∃ s, lookupSIGNS "J" = some s ∧ s.poses.length = 1 ∧ ¬2 ≤ s.poses.length :=
  ⟨_, rfl, rfl, by decide⟩

/-- Claim C10 (amended): every action produced by spelling decomposition has
kind `"letter"`, exactly one step, and a label that is the uppercased input
letter; and the Signs catalog models `J` and `Z` as single-pose entries whose
`motion` carries the trace, so each contributes a single step without any
flattening. -/
theorem C10_spelling_invariant (env : Env) (text : String) (r : TranslationResponse)
    (h : translate_text_to_actions env text = Except.ok r) (hs : r.source = "spelling") :
    (∀ a ∈ r.path, a.type = "letter" ∧ a.steps.length = 1 ∧
       ∃ ch ∈ (normalize text).data, isAsciiLowerAlpha ch = true ∧ a.label = signKey ch) ∧
    (∃ sJ, lookupSIGNS "J" = some sJ ∧ sJ.poses.length = 1) ∧
    (∃ sZ, lookupSIGNS "Z" = some sZ ∧ sZ.poses.length = 1) := by
  refine ⟨?_, ⟨_, rfl, rfl⟩, ⟨_, rfl, rfl⟩⟩
  intro a ha
  cases hf : fetch_phrase_by_best_match env (normalize text) with
  | some p =>
    rw [tta_phrase env text p hf] at h
    cases h
    have hps : ("phrases" : String) = "spelling" := hs
    exact absurd hps (by decide)
  | none =>
    rw [tta_none_eq env text hf] at h
    split at h
    · cases h
    · cases h
      obtain ⟨ch, hch, halpha, ls, hfet, hbuild⟩ :=
        spellList_actions_mem env (normalize text).data a ha
      have hallow : isAllowed ch = true := mem_normList_allowed text.data ch hch
      have hlow : isAsciiLowerAlpha ch = true := allowed_alpha_is_lower ch hallow halpha
      subst hbuild
      exact ⟨rfl, rfl, ch, hch, hlow, fetch_sign_letter env ch ls hlow hfet⟩

/-- The concrete response of spelling `"ab"` against `envLocal`. -/
def responseAB : TranslationResponse :=
  { normalized_text := "ab",
    path := [{ type := "letter", label := "A",
               steps := [{ handshape := "fist", orientation := "palm-out",
                           location := "neutral-space", motion := "none" }] },
             { type := "letter", label := "B",
               steps := [{ handshape := "flat-hand-thumb-in", orientation := "palm-out",
                           location := "neutral-space", motion := "none" }] }],
    source := "spelling", warnings := [] }

/-- Witness for C10: spelling `"ab"` with both catalogs down yields two
one-step letter actions labeled `A` and `B`. -/
theorem C10_spelling_invariant_witness :
    (translate_text_to_actions envLocal "ab" = Except.ok responseAB ∧
     responseAB.source = "spelling") ∧
    ((∀ a ∈ responseAB.path, a.type = "letter" ∧ a.steps.length = 1 ∧
        ∃ ch ∈ (normalize "ab").data, isAsciiLowerAlpha ch = true ∧ a.label = signKey ch) ∧
     (∃ sJ, lookupSIGNS "J" = some sJ ∧ sJ.poses.length = 1) ∧
     (∃ sZ, lookupSIGNS "Z" = some sZ ∧ sZ.poses.length = 1)) :=
  ⟨⟨rfl, rfl⟩, C10_spelling_invariant envLocal "ab" responseAB rfl rfl⟩

/-! ## Claim C3 — InvalidInput exactly on empty or whitespace-only input -/

/-- Claim C3 (counterexample): via the GET surface, the whitespace-only input
`" "` does not fail with `InvalidInput`: it reaches translation, normalizes to
the empty string, produces no action and fails with `NoTranslationAvailable`. -/
theorem C3_counterexample :
    translate_get envLocal " " = Except.error ApiError.noTranslation ∧
    ApiError.noTranslation ≠ ApiError.invalidInput := by
  constructor
  · rfl
  · decide

/-- Claim C3 (amended): the POST surface fails with `InvalidInput` exactly when
the raw text is empty or whitespace-only; the GET surface rejects only the
empty string (FastAPI `min_length=1`) — a whitespace-only GET input instead
flows into translation (whose only failures are `NoTranslationAvailable`). -/
theorem C3_surface_errors (env : Env) (text : String) :
    (translate_post env text = Except.error ApiError.invalidInput ↔ pyStrip text = "") ∧
    (translate_get env text = Except.error ApiError.invalidInput ↔ text = "") := by
  constructor
  · constructor
    · intro h
      unfold translate_post at h
      by_cases hc : text = "" ∨ pyStrip text = ""
      · rcases hc with hc | hc
        · rw [hc]; rfl
        · exact hc
      · rw [if_neg hc] at h
        exact absurd h (tta_ne_invalid env text)
    · intro h
      unfold translate_post
      rw [if_pos (Or.inr h)]
  · constructor
    · intro h
      unfold translate_get at h
      by_cases hc : text = ""
      · exact hc
      · rw [if_neg hc] at h
        exact absurd h (tta_ne_invalid env text)
    · intro h
      unfold translate_get
      rw [if_pos h]

/-- Witness for C3: instantiation at the whitespace-only input `"   "` with
both catalogs down. -/
theorem C3_surface_errors_witness :
    (translate_post envLocal "   " = Except.error ApiError.invalidInput ↔
      pyStrip "   " = "") ∧
    (translate_get envLocal "   " = Except.error ApiError.invalidInput ↔
      ("   " : String) = "") :=
  C3_surface_errors envLocal "   "

/-! ## Claim C4 — failure on exhaustion -/

/-- Claim C4: when no phrase matches and the spelling loop resolves no
character to an action, translation fails with `NoTranslationAvailable` (the
422) instead of returning an empty action list. -/
theorem C4_exhaustion (env : Env) (text : String)
    (hp : fetch_phrase_by_best_match env (normalize text) = none)
    (ha : (spellList env (normalize text).data).actions = []) :
    translate_text_to_actions env text = Except.error ApiError.noTranslation := by
  rw [tta_none_eq env text hp, if_pos ha]

/-- Witness for C4: the spec example `"123!!!"` with both catalogs down. -/
theorem C4_exhaustion_witness :
    (fetch_phrase_by_best_match envLocal (normalize "123!!!") = none ∧
     (spellList envLocal (normalize "123!!!").data).actions = []) ∧
    translate_text_to_actions envLocal "123!!!" = Except.error ApiError.noTranslation :=
  ⟨⟨by decide, by decide⟩, C4_exhaustion envLocal "123!!!" (by decide) (by decide)⟩

/-! ## Claim C5 — one aggregated warning for unresolved letters -/

theorem charWarning_head (ch : Char) : (charWarning ch).data.head? = some 'C' := rfl

theorem missingWarning_head (ms : List Char) :
    (missingWarning ms).data.head? = some 'N' := rfl

theorem charWarning_ne_missingWarning (ch : Char) (ms : List Char) :
    charWarning ch ≠ missingWarning ms := by
  intro h
  have hc := charWarning_head ch
  rw [h, missingWarning_head ms] at hc
  exact absurd hc (by decide)

theorem spell_warnings_are_char (env : Env) (l : List Char) :
    ∀ w ∈ (spellList env l).warnings, ∃ ch, w = charWarning ch := by
  induction l with
  | nil => intro w hw; simp [spellList] at hw
  | cons c rest ih =>
    intro w hw
    simp only [spellList] at hw
    split at hw
    · exact ih w hw
    · split at hw
      · dsimp only at hw
        rw [List.mem_cons] at hw
        rcases hw with hw | hw
        · exact ⟨c, hw⟩
        · exact ih w hw
      · split at hw
        · exact ih w hw
        · exact ih w hw

theorem pySortedSet_ext (ms1 ms2 : List Char) (h : ∀ c, c ∈ ms1 ↔ c ∈ ms2) :
    pySortedSet ms1 = pySortedSet ms2 := by
  unfold pySortedSet
  have h1 : List.Perm ms1.dedup ms2.dedup := by
    rw [List.perm_ext_iff_of_nodup (List.nodup_dedup ms1) (List.nodup_dedup ms2)]
    intro a
    rw [List.mem_dedup, List.mem_dedup]
    exact h a
  have hperm : List.Perm (List.insertionSort (fun a b => a ≤ b) ms1.dedup)
      (List.insertionSort (fun a b => a ≤ b) ms2.dedup) :=
    ((List.perm_insertionSort _ _).trans h1).trans (List.perm_insertionSort _ _).symm
  exact List.eq_of_perm_of_sorted hperm
    (List.sorted_insertionSort _ _) (List.sorted_insertionSort _ _)

theorem missingWarning_ext (ms1 ms2 : List Char) (h : ∀ c, c ∈ ms1 ↔ c ∈ ms2) :
    missingWarning ms1 = missingWarning ms2 := by
  unfold missingWarning
  rw [pySortedSet_ext ms1 ms2 h]

/-- Claim C5 (counterexample): translating `"qqq"` with `q` unresolvable
everywhere yields no result carrying a warning at all — the empty-action 422
check fires before the aggregated warning is appended, so the call fails with
`NoTranslationAvailable`. -/
theorem C5_counterexample :
    translate_text_to_actions envLocal "qqq" = Except.error ApiError.noTranslation ∧
    ∀ r : TranslationResponse, translate_text_to_actions envLocal "qqq" ≠ Except.ok r := by
  have h0 : translate_text_to_actions envLocal "qqq" =
      Except.error ApiError.noTranslation := rfl
  exact ⟨h0, fun r h => by rw [h0] at h; cases h⟩

/-- Claim C5 (amended): for every input reaching spelling with a non-empty
unresolved set AND at least one resolved action, the result carries the
per-character warnings followed by exactly one aggregated warning (count 1,
last in the list) whose text depends only on the set of unresolved letters —
sorted and de-duplicated; when additionally no letter resolves (e.g. `"qqq"`),
the call instead fails with `NoTranslationAvailable` and no warning is
reported. -/
theorem C5_aggregated_warning (env : Env) (text : String)
    (hp : fetch_phrase_by_best_match env (normalize text) = none)
    (ha : (spellList env (normalize text).data).actions ≠ [])
    (hm : (spellList env (normalize text).data).missing ≠ []) :
    ∃ r, translate_text_to_actions env text = Except.ok r ∧
      r.warnings = (spellList env (normalize text).data).warnings ++
        [missingWarning (spellList env (normalize text).data).missing] ∧
      r.warnings.count (missingWarning (spellList env (normalize text).data).missing) = 1 ∧
      r.warnings.getLast? =
        some (missingWarning (spellList env (normalize text).data).missing) ∧
      ∀ ms : List Char,
        (∀ c, c ∈ ms ↔ c ∈ (spellList env (normalize text).data).missing) →
        missingWarning ms = missingWarning (spellList env (normalize text).data).missing := by
  have htr := tta_none_eq env text hp
  rw [if_neg ha] at htr
  refine ⟨_, htr, ?_, ?_, ?_, ?_⟩
  · dsimp only
    rw [if_neg hm]
  · dsimp only
    rw [if_neg hm, List.count_append]
    have hz : ((spellList env (normalize text).data).warnings).count
        (missingWarning (spellList env (normalize text).data).missing) = 0 := by
      rw [List.count_eq_zero]
      intro hmem
      obtain ⟨ch, hch⟩ := spell_warnings_are_char env (normalize text).data _ hmem
      exact charWarning_ne_missingWarning ch _ hch.symm
    rw [hz]
    simp
  · dsimp only
    rw [if_neg hm]
    exact List.getLast?_concat _
  · intro ms hms
    exact missingWarning_ext ms _ hms

/-- Witness for C5: spelling `"qa"` with both catalogs down resolves `a`,
leaves `q` unresolved, and carries exactly the one aggregated warning. -/
theorem C5_aggregated_warning_witness :
    (fetch_phrase_by_best_match envLocal (normalize "qa") = none ∧
     (spellList envLocal (normalize "qa").data).actions ≠ [] ∧
     (spellList envLocal (normalize "qa").data).missing ≠ []) ∧
    (∃ r, translate_text_to_actions envLocal "qa" = Except.ok r ∧
      r.warnings = (spellList envLocal (normalize "qa").data).warnings ++
        [missingWarning (spellList envLocal (normalize "qa").data).missing] ∧
      r.warnings.count (missingWarning (spellList envLocal (normalize "qa").data).missing) = 1 ∧
      r.warnings.getLast? =
        some (missingWarning (spellList envLocal (normalize "qa").data).missing) ∧
      ∀ ms : List Char,
        (∀ c, c ∈ ms ↔ c ∈ (spellList envLocal (normalize "qa").data).missing) →
        missingWarning ms = missingWarning (spellList envLocal (normalize "qa").data).missing) :=
  ⟨⟨by decide, by decide, by decide⟩,
   C5_aggregated_warning envLocal "qa" (by decide) (by decide) (by decide)⟩

/-! ## Claim C7 — no partial phrase matching -/

/-- STRICT affix test: `a` is a proper substring or superstring of `b`
(contiguous, and not equal). -/
def strictAffix (a b : String) : Bool :=
  a != b && (decide (a.data <:+: b.data) || decide (b.data <:+: a.data))

/-- The normalized display names of the phrase catalog. -/
def catalogNormNames : List String := phrasesServiceList.map (fun p => normalize p.name)

theorem catalogNormNames_no_affix :
    ∀ a ∈ catalogNormNames, ∀ b ∈ catalogNormNames,
      a ≠ b → ¬(a.data <:+: b.data) := by decide

theorem localPhraseKeys_sub : ∀ e ∈ LOCAL_PHRASES, e.1 ∈ catalogNormNames := by decide

theorem no_name_matches (ntext : String)
    (hkey : ∀ m ∈ catalogNormNames, m ≠ ntext) :
    lookupLocalPhrase ntext = none ∧
    phrasesServiceList.find? (fun p => normalize p.name == ntext) = none := by
  constructor
  · unfold lookupLocalPhrase
    have hf : LOCAL_PHRASES.find? (fun e => e.1 == ntext) = none := by
      rw [List.find?_eq_none]
      intro e he hb
      rw [beq_iff_eq] at hb
      exact hkey e.1 (localPhraseKeys_sub e he) hb
    rw [hf]
    rfl
  · rw [List.find?_eq_none]
    intro p hp hb
    rw [beq_iff_eq] at hb
    exact hkey (normalize p.name) (List.mem_map.mpr ⟨p, hp, rfl⟩) hb

theorem fetch_phrase_none_of_no_name (env : Env) (ntext : String)
    (henv : env.remotePhrases = phrasesServiceList)
    (hkey : ∀ m ∈ catalogNormNames, m ≠ ntext) :
    fetch_phrase_by_best_match env ntext = none := by
  obtain ⟨hloc, hrem⟩ := no_name_matches ntext hkey
  unfold fetch_phrase_by_best_match
  cases hb : (env.phrasesUp && env.phrasesFetchOk) with
  | false => exact hloc
  | true =>
    rw [henv, hrem]
    exact hloc

/-- Claim C7: phrase matching is exact normalized-name equality only — for any
known phrase name `N`, an input normalizing to a strict substring or
superstring of `normalize N` never selects a phrase: the lookup returns
nothing, and translation proceeds by spelling (or fails with
`NoTranslationAvailable` when nothing spells). -/
theorem C7_no_partial_match (env : Env) (text N : String)
    (henv : env.remotePhrases = phrasesServiceList)
    (hN : N ∈ phrasesServiceList.map (fun p => p.name))
    (hrel : strictAffix (normalize text) (normalize N) = true) :
    fetch_phrase_by_best_match env (normalize text) = none ∧
    (translate_text_to_actions env text = Except.error ApiError.noTranslation ∨
     ∃ r, translate_text_to_actions env text = Except.ok r ∧ r.source = "spelling") := by
  rw [strictAffix, Bool.and_eq_true, Bool.or_eq_true] at hrel
  obtain ⟨hne1b, hor⟩ := hrel
  have hne1 : normalize text ≠ normalize N := by simpa using hne1b
  have hNn : normalize N ∈ catalogNormNames := by
    obtain ⟨p, hp, hpN⟩ := List.mem_map.mp hN
    rw [← hpN]
    exact List.mem_map.mpr ⟨p, hp, rfl⟩
  have hkey : ∀ m ∈ catalogNormNames, m ≠ normalize text := by
    intro m hm heq
    subst heq
    rcases hor with h | h
    · exact catalogNormNames_no_affix (normalize text) hm (normalize N) hNn hne1
        (of_decide_eq_true h)
    · exact catalogNormNames_no_affix (normalize N) hNn (normalize text) hm
        (Ne.symm hne1) (of_decide_eq_true h)
  have hfetch := fetch_phrase_none_of_no_name env (normalize text) henv hkey
  refine ⟨hfetch, ?_⟩
  by_cases hsa : (spellList env (normalize text).data).actions = []
  · left
    rw [tta_none_eq env text hfetch, if_pos hsa]
  · right
    exact ⟨_, by rw [tta_none_eq env text hfetch, if_neg hsa], rfl⟩

/-- Witness for C7: `"how are"` normalizes to a strict prefix (hence
substring) of the known phrase name `"how are you"` and is not phrase-matched. -/
theorem C7_no_partial_match_witness :
    (envReal.remotePhrases = phrasesServiceList ∧
     "how are you" ∈ phrasesServiceList.map (fun p => p.name) ∧
     strictAffix (normalize "how are") (normalize "how are you") = true) ∧
    (fetch_phrase_by_best_match envReal (normalize "how are") = none ∧
     (translate_text_to_actions envReal "how are" = Except.error ApiError.noTranslation ∨
      ∃ r, translate_text_to_actions envReal "how are" = Except.ok r ∧
        r.source = "spelling")) :=
  ⟨⟨rfl, by decide, by decide⟩,
   C7_no_partial_match envReal "how are" "how are you" rfl (by decide) (by decide)⟩

/-! ## Claim C8 — fallback spelling completeness when the signs catalog is down -/

/-- The letters the Local Fallback Store `LOCAL_SIGNS` covers. -/
def fallbackLetters : List Char := ['a', 'b', 'c', 'i', 'l', 'y']

theorem fallback_facts : ∀ c ∈ fallbackLetters,
    ¬c = ' ' ∧ isAlphaPy c = true ∧ (lookupLocalSign (lowerAscii c)).isSome = true := by
  decide

theorem pySpace_not_alpha (c : Char) (h : isPySpace c = true) : isAlphaPy c = false := by
  simp only [isPySpace, decide_eq_true_eq] at h
  simp only [isAlphaPy, decide_eq_false_iff_not]
  omega

theorem fetch_sign_down (env : Env) (hs : env.signsUp = false) (ch : Char) :
    fetch_sign env ch = lookupLocalSign (lowerAscii ch) := by
  unfold fetch_sign
  rw [hs]
  rfl

theorem spellList_fallback (env : Env) (l : List Char)
    (hs : env.signsUp = false)
    (hchars : ∀ c ∈ l, c ∈ fallbackLetters ∨ isPySpace c = true) :
    (spellList env l).missing = [] ∧
    (spellList env l).actions.length = (l.filter (fun c => isAlphaPy c)).length := by
  induction l with
  | nil => exact ⟨rfl, rfl⟩
  | cons c rest ih =>
    obtain ⟨ihm, ihl⟩ := ih (fun d hd => hchars d (List.mem_cons_of_mem c hd))
    rcases hchars c (List.mem_cons_self c rest) with hcf | hcs
    · obtain ⟨hne, haA, hsome⟩ := fallback_facts c hcf
      rw [Option.isSome_iff_exists] at hsome
      obtain ⟨ls, hls⟩ := hsome
      have hfs : fetch_sign env c = some ls := by
        rw [fetch_sign_down env hs c]
        exact hls
      have hstep : spellList env (c :: rest) =
          { actions := build_action_from_letter ls :: (spellList env rest).actions,
            warnings := (spellList env rest).warnings,
            missing := (spellList env rest).missing } := by
        simp only [spellList]
        rw [if_neg hne, haA, if_neg (by simp), hfs]
      rw [hstep]
      refine ⟨ihm, ?_⟩
      rw [List.filter_cons, if_pos haA]
      simp only [List.length_cons]
      rw [ihl]
    · by_cases hsp : c = ' '
      · subst hsp
        have hstep : spellList env (' ' :: rest) = spellList env rest := by
          simp only [spellList, if_true]
        rw [hstep]
        refine ⟨ihm, ?_⟩
        rw [List.filter_cons, if_neg (by decide)]
        exact ihl
      · have haF : isAlphaPy c = false := pySpace_not_alpha c hcs
        have hstep : spellList env (c :: rest) =
            { actions := (spellList env rest).actions,
              warnings := charWarning c :: (spellList env rest).warnings,
              missing := (spellList env rest).missing } := by
          simp only [spellList]
          rw [if_neg hsp, if_pos haF]
        rw [hstep]
        refine ⟨ihm, ?_⟩
        rw [List.filter_cons, if_neg (by rw [haF]; simp)]
        exact ihl

/-- Claim C8: with the remote Letter Catalog unreachable, an input whose
normalization consists only of fallback-store letters (plus whitespace) and
that does not phrase-match spells completely through the Local Fallback Store:
one action per letter, and the result carries no unresolved-letter warning. -/
theorem C8_fallback_spelling (env : Env) (text : String)
    (hs : env.signsUp = false)
    (hp : fetch_phrase_by_best_match env (normalize text) = none)
    (hchars : ∀ c ∈ (normalize text).data, c ∈ fallbackLetters ∨ isPySpace c = true)
    (hne : ∃ c ∈ (normalize text).data, c ∈ fallbackLetters) :
    ∃ r, translate_text_to_actions env text = Except.ok r ∧ r.source = "spelling" ∧
      r.path.length = ((normalize text).data.filter (fun c => isAlphaPy c)).length ∧
      ∀ w ∈ r.warnings, ∀ ms : List Char, w ≠ missingWarning ms := by
  obtain ⟨hmiss, hlen⟩ := spellList_fallback env (normalize text).data hs hchars
  have hact : (spellList env (normalize text).data).actions ≠ [] := by
    obtain ⟨c, hc, hcf⟩ := hne
    have hmemf : c ∈ (normalize text).data.filter (fun c => isAlphaPy c) :=
      List.mem_filter.mpr ⟨hc, (fallback_facts c hcf).2.1⟩
    intro h0
    rw [h0] at hlen
    have hemp : (normalize text).data.filter (fun c => isAlphaPy c) = [] :=
      List.length_eq_zero.mp hlen.symm
    rw [hemp] at hmemf
    cases hmemf
  have htr := tta_none_eq env text hp
  rw [if_neg hact] at htr
  refine ⟨_, htr, rfl, hlen, ?_⟩
  intro w hw ms
  dsimp only at hw
  rw [hmiss, if_pos rfl, List.append_nil] at hw
  obtain ⟨ch, hch⟩ := spell_warnings_are_char env (normalize text).data w hw
  rw [hch]
  exact charWarning_ne_missingWarning ch ms

/-- Witness for C8: `"bail cay"` — all letters live in the fallback store —
spelled with both catalogs down: seven actions, no unresolved-letter warning. -/
theorem C8_fallback_spelling_witness :
    (envLocal.signsUp = false ∧
     fetch_phrase_by_best_match envLocal (normalize "bail cay") = none ∧
     (∀ c ∈ (normalize "bail cay").data, c ∈ fallbackLetters ∨ isPySpace c = true) ∧
     (∃ c ∈ (normalize "bail cay").data, c ∈ fallbackLetters)) ∧
    (∃ r, translate_text_to_actions envLocal "bail cay" = Except.ok r ∧
      r.source = "spelling" ∧
      r.path.length = ((normalize "bail cay").data.filter (fun c => isAlphaPy c)).length ∧
      ∀ w ∈ r.warnings, ∀ ms : List Char, w ≠ missingWarning ms) :=
  ⟨⟨rfl, by decide, by decide, by decide⟩,
   C8_fallback_spelling envLocal "bail cay" rfl (by decide) (by decide) (by decide)⟩

/-! ## Claim C6 — the timed plan

Modelled from the spec: the timing-aware translate variant carrying
`hold_duration` and `toTimedPlan` is part of the repository but not among the
sources under src/ (src/ holds 3 of the repository's files; the spec describes
`GestureStep.hold_duration` in integer milliseconds ≥ 0 and the secondary
contract `toTimedPlan(actions) -> ordered {startOffset, endOffset, kind,
token}` accumulating a running duration, `hold_duration` summed per step).
The definitions below follow the spec's words. -/

/-- Modelled from the spec: a `GestureStep` (§3) — one atomic pose/motion unit
with a `hold_duration` in integer milliseconds. -/
structure GestureStep where
  handshape : String
  orientation : String
  location : String
  motion : String
  hold_duration : Nat
deriving DecidableEq

/-- Modelled from the spec: an output `Action` (§3) as consumed by
`toTimedPlan` — kind, label, ordered steps. -/
structure TimedAction where
  kind : String
  label : String
  steps : List GestureStep
deriving DecidableEq

/-- Modelled from the spec: one record of the timed plan. -/
structure TimedStep where
  startOffset : Nat
  endOffset : Nat
  kind : String
  token : String
deriving DecidableEq

/-- Modelled from the spec: the per-step stream `toTimedPlan` walks — for each
action, each of its steps in order, tagged with the action's kind and label. -/
def flattenActions (actions : List TimedAction) : List (String × String × Nat) :=
  actions.flatMap (fun a => a.steps.map (fun s => (a.kind, a.label, s.hold_duration)))

/-- Modelled from the spec: the walk accumulating the running duration: each
step starts at the accumulated offset and ends `hold_duration` later. -/
def toTimedPlanAux (t : Nat) : List (String × String × Nat) → List TimedStep
  | [] => []
  | e :: rest =>
    { startOffset := t, endOffset := t + e.2.2, kind := e.1, token := e.2.1 } ::
      toTimedPlanAux (t + e.2.2) rest

/-- Modelled from the spec: `toTimedPlan(actions)`. -/
def toTimedPlan (actions : List TimedAction) : List TimedStep :=
  toTimedPlanAux 0 (flattenActions actions)

/-- Sum of the duration components of a flattened step stream. -/
def sumDur (l : List (String × String × Nat)) : Nat := (l.map (fun e => e.2.2)).sum

/-- Modelled from the spec: total duration — `hold_duration` summed per step
over all actions. -/
def totalDuration (actions : List TimedAction) : Nat :=
  (actions.map (fun a => (a.steps.map (fun s => s.hold_duration)).sum)).sum

/-- The interleaved offset sequence start₀, end₀, start₁, end₁, … of a plan. -/
def offsetsOf (plan : List TimedStep) : List Nat :=
  plan.flatMap (fun ts => [ts.startOffset, ts.endOffset])

/-- The final offset of the plan (0 for an empty plan). -/
def lastEnd (plan : List TimedStep) : Nat := plan.foldl (fun _ ts => ts.endOffset) 0

theorem toTimedPlanAux_foldl (l : List (String × String × Nat)) :
    ∀ t, (toTimedPlanAux t l).foldl (fun _ ts => ts.endOffset) t = t + sumDur l := by
  induction l with
  | nil => intro t; simp [toTimedPlanAux, sumDur]
  | cons e rest ih =>
    intro t
    simp only [toTimedPlanAux, List.foldl_cons]
    rw [ih (t + e.2.2)]
    simp only [sumDur, List.map_cons, List.sum_cons]
    omega

theorem toTimedPlanAux_chain (l : List (String × String × Nat)) :
    ∀ t, List.Chain' (fun a b => a ≤ b) (t :: offsetsOf (toTimedPlanAux t l)) := by
  induction l with
  | nil => intro t; exact List.chain'_singleton t
  | cons e rest ih =>
    intro t
    have hoff : offsetsOf (toTimedPlanAux t (e :: rest)) =
        t :: (t + e.2.2) :: offsetsOf (toTimedPlanAux (t + e.2.2) rest) := rfl
    rw [hoff, List.chain'_cons]
    refine ⟨le_refl t, ?_⟩
    rw [List.chain'_cons]
    exact ⟨Nat.le_add_right t e.2.2, ih (t + e.2.2)⟩

theorem sumDur_flatten (actions : List TimedAction) :
    sumDur (flattenActions actions) = totalDuration actions := by
  induction actions with
  | nil => rfl
  | cons a rest ih =>
    have hf : flattenActions (a :: rest) =
        (a.steps.map (fun s => (a.kind, a.label, s.hold_duration))) ++
          flattenActions rest := rfl
    rw [totalDuration, List.map_cons, List.sum_cons, hf, sumDur, List.map_append,
      List.sum_append]
    rw [sumDur] at ih
    rw [ih, totalDuration]
    congr 1
    rw [List.map_map]
    rfl

/-- Claim C6 (spec-modelled): for a non-empty action list, `toTimedPlan`
produces records whose interleaved start/end offsets are non-decreasing,
computed by accumulating each step's `hold_duration`, and the final offset
equals the sum of all step durations. -/
theorem C6_timed_plan (actions : List TimedAction) (_h : actions ≠ []) :
    List.Chain' (fun a b => a ≤ b) (offsetsOf (toTimedPlan actions)) ∧
    lastEnd (toTimedPlan actions) = totalDuration actions := by
  constructor
  · exact (toTimedPlanAux_chain (flattenActions actions) 0).tail
  · show (toTimedPlanAux 0 (flattenActions actions)).foldl (fun _ ts => ts.endOffset) 0 =
      totalDuration actions
    rw [toTimedPlanAux_foldl (flattenActions actions) 0, Nat.zero_add, sumDur_flatten]

/-- The spec's concrete scenario: one `hello` phrase action holding 700 ms. -/
def demoActions : List TimedAction :=
  [{ kind := "phrase", label := "hello",
     steps := [{ handshape := "flat-hand", orientation := "palm-out",
                 location := "near-temple", motion := "small-outward-wave",
                 hold_duration := 700 }] }]

/-- Witness for C6: the `hello` scenario — total duration 700. -/
theorem C6_timed_plan_witness :
    demoActions ≠ [] ∧
    (List.Chain' (fun a b => a ≤ b) (offsetsOf (toTimedPlan demoActions)) ∧
     lastEnd (toTimedPlan demoActions) = totalDuration demoActions) :=
  ⟨by decide, C6_timed_plan demoActions (by decide)⟩

end ASL
